import Mathlib

/-!
# Homing (call-home telemetry) service: request helpers, middleware, start-up, schema

A shallow embedding of the Go sources

* `internal/homing/api/utils.go`   (`ExtractBearerToken`, `ReadUintQuery`, `ReadStringQuery`)
* `internal/homing/api/logging.go` (`LoggingMiddleware`)
* `internal/homing/api/metrics.go` (`MetricsMiddleware`)
* `cmd/homing-server/main.go`      (`newService`, `main`)
* `internal/homing/repository/timescale/init.go` (migration `telemetry_1`)

Go strings are byte sequences, so a Go `string` is a list of bytes here.  Machine
integers are natural numbers with an explicit `% 2 ^ 64` (or `% 256`) where the Go
code could wrap.  A Go result pair `(value, error)` is a pair whose second component
is an `Option`: `none` is the `nil` error.
-/

/-! ## Go strings -/

/-- A Go `byte`. -/
abbrev Byte := Fin 256

/-- A Go `string`: an immutable sequence of bytes. -/
abbrev GoString := List Byte

/-- A Go string literal: the UTF-8 bytes of the text between the quotes. -/
def str (s : String) : GoString := s.toUTF8.data.toList.map (fun b => b.val)

namespace strings

/-- Go `strings.HasPrefix`: `len(s) >= len(prefix) && s[:len(prefix)] == prefix`. -/
def HasPrefix (s pre : GoString) : Bool :=
  decide (s.length ≥ pre.length) && decide (s.take pre.length = pre)

/-- Go `strings.TrimPrefix`: `s` without the leading `prefix`, or `s` itself when it
does not start with `prefix`. -/
def TrimPrefix (s pre : GoString) : GoString :=
  if HasPrefix s pre then s.drop pre.length else s

/-- Go `strings.Split(s, sep)` for a separator of one byte: the pieces of `s` between
the separators; a string without the separator gives the one piece `s`, also when
`s` is empty. -/
def Split (sep : Byte) : GoString → List GoString
  | [] => [[]]
  | c :: rest =>
    if c = sep then [] :: Split sep rest
    else
      match Split sep rest with
      | [] => [[c]]
      | piece :: pieces => (c :: piece) :: pieces

/-- Go `strings.Cut(s, sep)` for a separator of one byte: the text before the first
separator, the text after it, and whether there is one. -/
def Cut (sep : Byte) : GoString → GoString × GoString × Bool
  | [] => ([], [], false)
  | c :: rest =>
    if c = sep then ([], rest, true)
    else
      match Cut sep rest with
      | (before, after, found) => (c :: before, after, found)

/-- Go `strings.Contains(s, sep)` for a separator of one byte. -/
def Contains (sep : Byte) (s : GoString) : Bool := decide (sep ∈ s)

end strings

namespace strconv

/-- The two causes carried by a `*strconv.NumError`. -/
inductive NumError where
  | ErrSyntax
  | ErrRange
  deriving DecidableEq, Repr

/-- Go `maxUint64 = 1<<64 - 1`. -/
def maxUint64 : Nat := 2 ^ 64 - 1

/-- Go `lower(c) = c | ('x' - 'X')`. -/
def lower (c : Byte) : Nat := c.val ||| 32

/-- The body of the `for _, c := range []byte(s)` loop of `strconv.ParseUint`, for a
base between 2 and 36 (so that the underscore case, guarded by `base == 0`, is never
taken).  `n` is the accumulator, `cutoff` and `maxVal` are the values computed before
the loop. -/
def parseUintLoop (base cutoff maxVal : Nat) (n : Nat) : List Byte → Nat × Option NumError
  | [] => (n, none)
  | c :: rest =>
    let digit (d : Nat) : Nat × Option NumError :=
      if d ≥ base % 256 then (0, some .ErrSyntax)
      else if n ≥ cutoff then (maxVal, some .ErrRange)
      else
        let n' := (n * base) % 2 ^ 64
        let n1 := (n' + d) % 2 ^ 64
        if n1 < n' ∨ n1 > maxVal then (maxVal, some .ErrRange)
        else parseUintLoop base cutoff maxVal n1 rest
    if 48 ≤ c.val ∧ c.val ≤ 57 then digit ((c.val + 256 - 48) % 256)
    else if 97 ≤ lower c ∧ lower c ≤ 122 then digit ((lower c + 256 - 97 + 10) % 256)
    else (0, some .ErrSyntax)

/-- Go `strconv.ParseUint(s, base, bitSize)` for `2 <= base <= 36` and
`1 <= bitSize <= 64`, the only way this program calls it (`base = 10`,
`bitSize = 64`). -/
def ParseUint (s : GoString) (base bitSize : Nat) : Nat × Option NumError :=
  if s = [] then (0, some .ErrSyntax)
  else
    let cutoff := maxUint64 / base + 1
    let maxVal := (2 ^ bitSize - 1) % 2 ^ 64
    parseUintLoop base cutoff maxVal 0 s

end strconv

/-! ## The HTTP request, as far as the helpers read it -/

namespace url

/-- The errors of `url.ParseQuery`: a bad `%` escape, or a `;` in the query. -/
inductive Error where
  | EscapeError
  | InvalidSemicolon
  deriving DecidableEq, Repr

/-- Go `url.Values`: a map from a name to the list of its values; a name that is
absent maps to the empty list. -/
abbrev Values := GoString → List GoString

/-- Go `ishex`. -/
def ishex (c : Byte) : Bool :=
  (decide (48 ≤ c.val) && decide (c.val ≤ 57)) ||
  (decide (97 ≤ c.val) && decide (c.val ≤ 102)) ||
  (decide (65 ≤ c.val) && decide (c.val ≤ 70))

/-- Go `unhex`. -/
def unhex (c : Byte) : Nat :=
  if 48 ≤ c.val ∧ c.val ≤ 57 then c.val - 48
  else if 97 ≤ c.val ∧ c.val ≤ 102 then c.val - 97 + 10
  else if 65 ≤ c.val ∧ c.val ≤ 70 then c.val - 65 + 10
  else 0

/-- Go `url.QueryUnescape(s)`: `%XY` becomes the byte with the hexadecimal digits
`XY`, `+` becomes a space; a `%` that is not followed by two hexadecimal digits is an
error. -/
def QueryUnescape : GoString → Except Error GoString
  | [] => .ok []
  | c :: rest =>
    if c = 37 then
      match rest with
      | h1 :: h2 :: rest2 =>
        if ishex h1 && ishex h2 then
          match QueryUnescape rest2 with
          | .ok t => .ok (⟨(unhex h1 * 16 + unhex h2) % 256, Nat.mod_lt _ (by decide)⟩ :: t)
          | .error e => .error e
        else .error .EscapeError
      | _ => .error .EscapeError
    else
      match QueryUnescape rest with
      | .ok t => .ok ((if c = 43 then 32 else c) :: t)
      | .error e => .error e

/-- One turn of the loop of `parseQuery`, on the piece `key` that
`strings.Cut(query, "&")` gave: `m` is the map and `err` the error so far. -/
def parseQueryStep (acc : Values × Option Error) (key : GoString) : Values × Option Error :=
  let (m, err) := acc
  if strings.Contains 59 key then (m, some .InvalidSemicolon)
  else if key = [] then (m, err)
  else
    match strings.Cut 61 key with
    | (key, value, _) =>
      match QueryUnescape key with
      | .error err1 => (m, if err = none then some err1 else err)
      | .ok key =>
        match QueryUnescape value with
        | .error err1 => (m, if err = none then some err1 else err)
        | .ok value => (fun k => if k = key then m k ++ [value] else m k, err)

/-- Go `url.ParseQuery(query)`: the map of the values parsed, and the first error
found, if any.  The loop takes the pieces of `query` between `&` in turn; a piece
that cannot be decoded is left out and parsing goes on. -/
def ParseQuery (query : GoString) : Values × Option Error :=
  (strings.Split 38 query).foldl parseQueryStep (fun _ => [], none)

end url

namespace http

/-- The parts of a `*http.Request` that the helpers read: the header map, from a
name to the list of its values (a name that is absent maps to the empty list), and
the field `URL.RawQuery`, the query string after the `?`. -/
structure Request where
  Header : GoString → List GoString
  RawQuery : GoString

/-- Go `Header.Get(key)`: the first value associated with the key, or `""`. -/
def Header.Get (h : GoString → List GoString) (key : GoString) : GoString :=
  match h key with
  | [] => []
  | v :: _ => v

end http

namespace bone

/-- The function `extractQueries` of `go-zoo/bone`: when `url.ParseQuery` reports no
error, every value of every key split at its commas; else nothing. -/
def extractQueries (req : http.Request) : Bool × url.Values :=
  match url.ParseQuery req.RawQuery with
  | (q, none) => (true, fun k => (q k).flatMap (fun item => strings.Split 44 item))
  | (_, some _) => (false, fun _ => [])

/-- The call `bone.GetQuery(req, key)`: `value[key]` of `extractQueries` when that
succeeds, else `nil`. -/
def GetQuery (req : http.Request) (key : GoString) : List GoString :=
  match extractQueries req with
  | (true, value) => value key
  | (false, _) => []

end bone

namespace errors

/-- The error values of `mainflux/pkg/errors` that the helpers return. -/
inductive Error where
  | ErrInvalidQueryParams
  deriving DecidableEq, Repr

end errors

namespace api

/-- Constant `BearerPrefix` represents the token prefix for Bearer authentication scheme. -/
def BearerPrefix : GoString := str "Bearer "

/-- Function `ExtractBearerToken` returns value of the bearer token. If there is no bearer
token - an empty value is returned. -/
def ExtractBearerToken (r : http.Request) : GoString :=
  let token := http.Header.Get r.Header (str "Authorization")
  if !strings.HasPrefix token BearerPrefix then []
  else strings.TrimPrefix token BearerPrefix

/-- Function `ReadUintQuery` reads the value of uint64 http query parameters for a given key. -/
def ReadUintQuery (r : http.Request) (key : GoString) (def_ : Nat) :
    Nat × Option errors.Error :=
  let vals := bone.GetQuery r key
  if vals.length > 1 then (0, some .ErrInvalidQueryParams)
  else
    match vals with
    | [] => (def_, none)
    | strval :: _ =>
      match strconv.ParseUint strval 10 64 with
      | (_, some _) => (0, some .ErrInvalidQueryParams)
      | (val, none) => (val, none)

/-- Function `ReadStringQuery` reads the value of string http query parameters for a given key. -/
def ReadStringQuery (r : http.Request) (key : GoString) (def_ : GoString) :
    GoString × Option errors.Error :=
  let vals := bone.GetQuery r key
  if vals.length > 1 then ([], some .ErrInvalidQueryParams)
  else
    match vals with
    | [] => (def_, none)
    | v :: _ => (v, none)

end api

/-! ## Time, logger and metrics: the collaborators the middleware calls -/

namespace time

/-- A `time.Duration`: a signed 64-bit count of nanoseconds. -/
abbrev Duration := Int

/-- A reading of the clock, in nanoseconds. -/
abbrev Time := Int

/-- The clock as the program sees it: `readings k` is what the `k`-th call of
`time.Now()` returns, `reads` counts the calls made so far. -/
structure Clock where
  readings : Nat → Time
  reads : Nat

/-- Go `time.Now()`. -/
def Now (c : Clock) : Time × Clock :=
  (c.readings c.reads, { c with reads := c.reads + 1 })

/-- Go `t.Sub(u)`: the difference, saturated to the range of a `Duration`. -/
def Sub (t u : Time) : Duration :=
  let d := t - u
  if d > 2 ^ 63 - 1 then 2 ^ 63 - 1
  else if d < -(2 ^ 63) then -(2 ^ 63)
  else d

/-- Go `time.Since(t)`, which is `time.Now().Sub(t)`. -/
def Since (t : Time) (c : Clock) : Duration × Clock :=
  (Sub (Now c).1 t, (Now c).2)

end time

namespace logger

/-- The methods of `logger.Logger`. -/
inductive Level where
  | Debug
  | Info
  | Warn
  | Error
  deriving DecidableEq, Repr

/-- One call on a `logger.Logger`: the method and its message. -/
structure Entry where
  level : Level
  message : GoString
  deriving DecidableEq, Repr

/-- A `logger.Logger`, observed at its interface: the calls made on it, oldest
first. -/
abbrev Logger := List Entry

/-- The call `l.Warn(msg)`. -/
def Logger.Warn (l : Logger) (msg : GoString) : Logger := l ++ [⟨.Warn, msg⟩]

/-- The call `l.Info(msg)`. -/
def Logger.Info (l : Logger) (msg : GoString) : Logger := l ++ [⟨.Info, msg⟩]

/-- The call `l.Error(msg)`. -/
def Logger.Error (l : Logger) (msg : GoString) : Logger := l ++ [⟨.Error, msg⟩]

end logger

namespace metrics

/-- A `metrics.Counter` or `metrics.Histogram` value: the label values bound to it
by `With` so far. -/
structure Handle where
  lvs : List GoString
  deriving DecidableEq, Repr

/-- Go `c.With(labelValues...)`: a handle with the label values appended. -/
def Handle.With (c : Handle) (labelValues : List GoString) : Handle :=
  ⟨c.lvs ++ labelValues⟩

/-- The backend of a counter, observed at its interface: every `Add`, with the
label values of the handle it was called on and its delta, oldest first. -/
abbrev Counter := List (List GoString × Nat)

/-- The backend of a histogram: every `Observe`, with the label values of the handle
and the duration whose `Seconds()` was observed, oldest first. -/
abbrev Histogram := List (List GoString × time.Duration)

/-- The call `c.Add(delta)` on the handle `c`. -/
def Handle.Add (c : Handle) (delta : Nat) (st : Counter) : Counter :=
  st ++ [(c.lvs, delta)]

/-- The call `h.Observe(d.Seconds())` on the handle `h`. -/
def Handle.Observe (h : Handle) (d : time.Duration) (st : Histogram) : Histogram :=
  st ++ [(h.lvs, d)]

/-- The value of the counter with label values `lvs`: the sum of its deltas. -/
def Counter.value (st : Counter) (lvs : List GoString) : Nat :=
  ((st.filter (fun a => a.1 = lvs)).map (fun a => a.2)).sum

/-- The number of observations recorded under the label values `lvs`. -/
def Histogram.count (st : Histogram) (lvs : List GoString) : Nat :=
  (st.filter (fun a => a.1 = lvs)).length

end metrics

/-! ## The service interface -/

namespace homing

/-- The types and methods that the middleware takes from elsewhere and only passes
through or prints: `context.Context`, the `homing` records, Go `error` values with
their `Error()` text, and the text `Duration.String()` gives. -/
structure Env where
  Context : Type
  Telemetry : Type
  PageMetadata : Type
  TelemetryPage : Type
  Error : Type
  ErrorText : Error → GoString
  DurationString : time.Duration → GoString

/-- The `homing.Service` interface.  An implementation has a state of type `σ`; a
method takes the state before the call and gives its results and the state after. -/
structure Service (E : Env) (σ : Type) where
  GetAll : E.Context → GoString → GoString → E.PageMetadata → σ →
    (E.TelemetryPage × Option E.Error) × σ
  Save : E.Context → E.Telemetry → σ → Option E.Error × σ

/-- One call on a `homing.Service`, with its arguments. -/
inductive Call (E : Env) where
  | GetAll (ctx : E.Context) (repo token : GoString) (pm : E.PageMetadata)
  | Save (ctx : E.Context) (t : E.Telemetry)

/-- A service that records every call made on it and answers as `getAll` and `save`
say. -/
def recorder (E : Env)
    (getAll : E.Context → GoString → GoString → E.PageMetadata →
      E.TelemetryPage × Option E.Error)
    (save : E.Context → E.Telemetry → Option E.Error) : Service E (List (Call E)) where
  GetAll := fun ctx repo token pm calls =>
    (getAll ctx repo token pm, calls ++ [.GetAll ctx repo token pm])
  Save := fun ctx t calls => (save ctx t, calls ++ [.Save ctx t])

end homing

/-! ## `logging.go` and `metrics.go` -/

namespace api

/-- The struct `loggingMiddleware`: the logger and the wrapped service (and the clock
its methods read). -/
structure loggingMiddleware (σ : Type) where
  hommingLogger : logger.Logger
  svc : σ
  clock : time.Clock

/-- The `message` of `loggingMiddleware.GetAll`:
`"Method get all telemetry with token %s took %s to complete"`. -/
def getAllMessage (E : homing.Env) (token : GoString) (elapsed : time.Duration) : GoString :=
  str "Method get all telemetry with token " ++ token ++ str " took " ++
    E.DurationString elapsed ++ str " to complete"

/-- The `message` of `loggingMiddleware.Save`:
`"Method save telemetry event took %s to complete"`. -/
def saveMessage (E : homing.Env) (elapsed : time.Duration) : GoString :=
  str "Method save telemetry event took " ++ E.DurationString elapsed ++ str " to complete"

/-- The body of the deferred function of both logging methods, after `message` is
built: `Warn` with `"%s with error: %s."` when `err != nil`, else `Info` with
`"%s without errors."`. -/
def logOutcome (E : homing.Env) (l : logger.Logger) (message : GoString)
    (err : Option E.Error) : logger.Logger :=
  match err with
  | some e => l.Warn (message ++ str " with error: " ++ E.ErrorText e ++ str ".")
  | none => l.Info (message ++ str " without errors.")

/-- The method `loggingMiddleware.GetAll` adds logging middleware to get all service. -/
def loggingMiddleware.GetAll {E : homing.Env} {σ : Type} (svc : homing.Service E σ)
    (ctx : E.Context) (repo token : GoString) (pm : E.PageMetadata)
    (lm : loggingMiddleware σ) : (E.TelemetryPage × Option E.Error) × loggingMiddleware σ :=
  -- the argument `time.Now()` of the deferred call is read at the `defer` statement
  let (begin, clock1) := time.Now lm.clock
  -- `return lm.svc.GetAll(ctx, repo, token, pm)` sets the named results
  let ((telemetryPage, err), svc1) := svc.GetAll ctx repo token pm lm.svc
  -- the deferred function
  let (elapsed, clock2) := time.Since begin clock1
  let message := getAllMessage E token elapsed
  ((telemetryPage, err),
    { hommingLogger := logOutcome E lm.hommingLogger message err, svc := svc1, clock := clock2 })

/-- The method `loggingMiddleware.Save` adds logging middleware to save service. -/
def loggingMiddleware.Save {E : homing.Env} {σ : Type} (svc : homing.Service E σ)
    (ctx : E.Context) (t : E.Telemetry) (lm : loggingMiddleware σ) :
    Option E.Error × loggingMiddleware σ :=
  let (begin, clock1) := time.Now lm.clock
  let (err, svc1) := svc.Save ctx t lm.svc
  let (elapsed, clock2) := time.Since begin clock1
  let message := saveMessage E elapsed
  (err, { hommingLogger := logOutcome E lm.hommingLogger message err, svc := svc1, clock := clock2 })

/-- Function `LoggingMiddleware` is a middleware that adds logging facilities to the core
homing service.  The logger it is given is the field `hommingLogger` of the state. -/
def LoggingMiddleware {E : homing.Env} {σ : Type} (svc : homing.Service E σ) :
    homing.Service E (loggingMiddleware σ) where
  GetAll := loggingMiddleware.GetAll svc
  Save := loggingMiddleware.Save svc

/-- The struct `metricsMiddleware`: the backends of the counter and of the latency
histogram and the wrapped service (and the clock its methods read). -/
structure metricsMiddleware (σ : Type) where
  counter : metrics.Counter
  latency : metrics.Histogram
  svc : σ
  clock : time.Clock

/-- The method `metricsMiddleware.GetAll` add metrics middleware to get all service. -/
def metricsMiddleware.GetAll {E : homing.Env} {σ : Type} (svc : homing.Service E σ)
    (counter latency : metrics.Handle)
    (ctx : E.Context) (repo token : GoString) (pm : E.PageMetadata)
    (mm : metricsMiddleware σ) : (E.TelemetryPage × Option E.Error) × metricsMiddleware σ :=
  let (begin, clock1) := time.Now mm.clock
  let (res, svc1) := svc.GetAll ctx repo token pm mm.svc
  -- the deferred function
  let counter1 := (counter.With [str "method", str "get all"]).Add 1 mm.counter
  let (elapsed, clock2) := time.Since begin clock1
  let latency1 := (latency.With [str "method", str "get all"]).Observe elapsed mm.latency
  (res, { counter := counter1, latency := latency1, svc := svc1, clock := clock2 })

/-- The method `metricsMiddleware.Save` adds metrics middleware to save service. -/
def metricsMiddleware.Save {E : homing.Env} {σ : Type} (svc : homing.Service E σ)
    (counter latency : metrics.Handle)
    (ctx : E.Context) (t : E.Telemetry) (mm : metricsMiddleware σ) :
    Option E.Error × metricsMiddleware σ :=
  let (begin, clock1) := time.Now mm.clock
  let (err, svc1) := svc.Save ctx t mm.svc
  let counter1 := (counter.With [str "method", str "save"]).Add 1 mm.counter
  let (elapsed, clock2) := time.Since begin clock1
  let latency1 := (latency.With [str "method", str "save"]).Observe elapsed mm.latency
  (err, { counter := counter1, latency := latency1, svc := svc1, clock := clock2 })

/-- Function `MetricsMiddleware` instruments core service by tracking request count and
latency. -/
def MetricsMiddleware {E : homing.Env} {σ : Type} (svc : homing.Service E σ)
    (counter latency : metrics.Handle) : homing.Service E (metricsMiddleware σ) where
  GetAll := metricsMiddleware.GetAll svc counter latency
  Save := metricsMiddleware.Save svc counter latency

end api

/-! ## `cmd/homing-server/main.go` -/

namespace Main

/-- Constant `svcName`. -/
def svcName : GoString := str "homing"

/-- The struct `config`. -/
structure config where
  LogLevel : GoString
  JaegerURL : GoString
  GCPCredFile : GoString
  SpreadsheetId : GoString
  SheetId : Int
  IPDatabaseFile : GoString

/-- What `main` and `newService` do to the outside, in order: the collaborators they
call and the lines they print.  `logFatalf` and `logPrintf` carry the line printed
from a constant format and its operands; `logFatalfFormat` and `logPrintfFormat` are
the calls `log.Fatalf(fmt.Sprintf(...))` and `log.Printf(fmt.Sprintf(...))`, which pass
the text `Sprintf` built as the format, with no operands. -/
inductive Event where
  | envParseConfig
  | mflogNew (level : GoString)
  | jaegerNewTracer (svcName url : GoString)
  | closerClose
  | sheetsNew (credFile spreadsheetID : GoString) (sheetID : Int)
  | NewLocationService (ipDB : GoString)
  | homingNew
  | MakeMetrics (name subsystem : GoString)
  | logFatalf (msg : GoString)
  | logPrintf (msg : GoString)
  | logFatalfFormat (format : GoString)
  | logPrintfFormat (format : GoString)
  | envParseServer
  | httpserverNew
  | goStart
  | goStopSignalHandler
  | gWait
  | loggerError (msg : GoString)
  deriving DecidableEq, Repr

/-- How the process ends: `main` returns, or `log.Fatalf` exits with status 1. -/
inductive Exit where
  | returned
  | fatal
  deriving DecidableEq, Repr

/-- The collaborators of `main` and `newService`, none of which is in the files
embedded here: what each of them answers.  `Repo` and `Loc` are the repository and
the location service; `σ` is the state of the core service `homing.New` builds. -/
structure World (E : homing.Env) (Repo Loc σ : Type) where
  envParseConfig : config × Option E.Error
  mflogNew : GoString → Option E.Error
  jaegerNewTracer : GoString → GoString → Option E.Error
  sheetsNew : GoString → GoString → Int → Except E.Error Repo
  NewLocationService : GoString → Except E.Error Loc
  homingNew : Repo → Loc → homing.Service E σ
  MakeMetrics : GoString → GoString → metrics.Handle × metrics.Handle
  envParseServer : Option E.Error
  gWait : Option E.Error

/-- The service `newService` returns on success. -/
abbrev Svc (E : homing.Env) (σ : Type) :=
  homing.Service E (api.loggingMiddleware (api.metricsMiddleware σ))

/-- The function `newService`.  The result is Go's pair `(homing.Service, error)`,
`none` being `nil`, and the events so far. -/
def newService {E : homing.Env} {Repo Loc σ : Type} (w : World E Repo Loc σ)
    (ipDB credFile spreadsheetID : GoString) (sheetID : Int) (tr : List Event) :
    (Option (Svc E σ) × Option E.Error) × List Event :=
  let tr1 := tr ++ [.sheetsNew credFile spreadsheetID sheetID]
  match w.sheetsNew credFile spreadsheetID sheetID with
  | .error err => ((none, some err), tr1)
  | .ok repo =>
    let tr2 := tr1 ++ [.NewLocationService ipDB]
    match w.NewLocationService ipDB with
    | .error err => ((none, some err), tr2)
    | .ok locsvc =>
      let svc := w.homingNew repo locsvc
      let tr3 := tr2 ++ [.homingNew]
      let (counter, latency) := w.MakeMetrics svcName (str "api")
      let tr4 := tr3 ++ [.MakeMetrics svcName (str "api")]
      let svc1 := api.MetricsMiddleware svc counter latency
      let svc2 := api.LoggingMiddleware svc1
      ((some svc2, none), tr4)

/-- The function `main`: the events it causes and how it ends. -/
def main {E : homing.Env} {Repo Loc σ : Type} (w : World E Repo Loc σ) :
    List Event × Exit :=
  let tr0 : List Event := [.envParseConfig]
  match w.envParseConfig with
  | (_, some err) =>
    (tr0 ++ [.logFatalf (str "failed to load " ++ svcName ++ str " configuration : " ++
      E.ErrorText err)], .fatal)
  | (cfg, none) =>
    let tr1 := tr0 ++ [.mflogNew cfg.LogLevel]
    match w.mflogNew cfg.LogLevel with
    | some err =>
      (tr1 ++ [.logFatalfFormat (str "failed to init logger: " ++ E.ErrorText err)], .fatal)
    | none =>
      let tr2 := tr1 ++ [.jaegerNewTracer (str "users") cfg.JaegerURL]
      match w.jaegerNewTracer (str "users") cfg.JaegerURL with
      | some err =>
        (tr2 ++ [.logFatalfFormat (str "failed to init Jaeger: " ++ E.ErrorText err)],
          .fatal)
      | none =>
        -- `defer closer.Close()`: runs when `main` returns
        match newService w cfg.IPDatabaseFile cfg.GCPCredFile cfg.SpreadsheetId cfg.SheetId tr2 with
        | ((_, some err), tr3) =>
          (tr3 ++ [.logPrintf (str "failed to initiailize service: " ++ E.ErrorText err),
            .closerClose], .returned)
        | ((_, none), tr3) =>
          let tr4 := tr3 ++ [.envParseServer]
          match w.envParseServer with
          | some err =>
            (tr4 ++ [.logPrintfFormat (str "failed to load " ++ svcName ++
              str " HTTP server configuration : " ++ E.ErrorText err), .closerClose], .returned)
          | none =>
            let tr5 := tr4 ++ [.httpserverNew, .goStart, .goStopSignalHandler, .gWait]
            match w.gWait with
            | some err =>
              (tr5 ++ [.loggerError (str "HTTP adapter service terminated: " ++
                E.ErrorText err), .closerClose], .returned)
            | none => (tr5 ++ [.closerClose], .returned)

end Main

/-! ## `repository/timescale/init.go`: the migration `telemetry_1` -/

namespace timescale

/-- The column types the migration uses. -/
inductive ColType where
  | UUID
  | TEXT
  | FLOAT
  | TIMESTAMPTZ
  deriving DecidableEq, Repr

/-- A column of a `CREATE TABLE`: name, type, and whether it is `NOT NULL`. -/
structure Column where
  name : String
  type : ColType
  notNull : Bool
  deriving DecidableEq, Repr

/-- A `CREATE TABLE` statement: the columns and the `PRIMARY KEY (...)` columns. -/
structure Table where
  name : String
  columns : List Column
  primaryKey : List String
  deriving DecidableEq, Repr

/-- The statement of migration `telemetry_1`, `Up`. -/
def telemetry : Table where
  name := "telemetry"
  columns := [
    ⟨"id", .UUID, false⟩,
    ⟨"ip_address", .TEXT, true⟩,
    ⟨"longitude", .FLOAT, true⟩,
    ⟨"latitude", .FLOAT, true⟩,
    ⟨"mf_version", .TEXT, false⟩,
    ⟨"service", .TEXT, false⟩,
    ⟨"last_seen", .TIMESTAMPTZ, false⟩,
    ⟨"country", .TEXT, false⟩,
    ⟨"city", .TEXT, false⟩]
  primaryKey := ["id"]

/-- A non-null SQL value: a UUID as a 128-bit number, a text, a float as its 64-bit
pattern, a timestamp as microseconds. -/
inductive Value where
  | UUID (v : Nat)
  | TEXT (s : String)
  | FLOAT (bits : Nat)
  | TIMESTAMPTZ (micros : Int)
  deriving DecidableEq, Repr

/-- The column type of a value. -/
def Value.type : Value → ColType
  | .UUID _ => .UUID
  | .TEXT _ => .TEXT
  | .FLOAT _ => .FLOAT
  | .TIMESTAMPTZ _ => .TIMESTAMPTZ

/-- A row: for each column name a value, or `none` for SQL `NULL`. -/
abbrev Row := String → Option Value

/-- Two rows agree on all of the columns `cols`. -/
def sameKey (cols : List String) (r1 r2 : Row) : Prop := ∀ k ∈ cols, r1 k = r2 k

instance (cols : List String) (r1 r2 : Row) : Decidable (sameKey cols r1 r2) :=
  inferInstanceAs (Decidable (∀ k ∈ cols, r1 k = r2 k))

/-- The cell fits the column: a value has the column's type, and `NULL` is allowed
only when the column is not `NOT NULL`. -/
def cellOk (c : Column) : Option Value → Bool
  | some v => decide (v.type = c.type)
  | none => !c.notNull

/-- The row fits the columns: every value has its column's type and no `NOT NULL`
column is null. -/
def rowOk (T : Table) (r : Row) : Prop :=
  ∀ c ∈ T.columns, cellOk c (r c.name) = true

instance (T : Table) (r : Row) : Decidable (rowOk T r) :=
  inferInstanceAs (Decidable (∀ c ∈ T.columns, cellOk c (r c.name) = true))

/-- The rows satisfy the table's declared constraints: every row fits the columns,
the primary key columns are never null, and no two rows agree on the primary key. -/
def satisfies (T : Table) (rows : List Row) : Prop :=
  (∀ r ∈ rows, rowOk T r) ∧
  (∀ r ∈ rows, ∀ k ∈ T.primaryKey, (r k).isSome = true) ∧
  rows.Pairwise (fun r1 r2 => ¬ sameKey T.primaryKey r1 r2)

instance (T : Table) (rows : List Row) : Decidable (satisfies T rows) :=
  inferInstanceAs (Decidable ((∀ r ∈ rows, rowOk T r) ∧
    (∀ r ∈ rows, ∀ k ∈ T.primaryKey, (r k).isSome = true) ∧
    rows.Pairwise (fun r1 r2 => ¬ sameKey T.primaryKey r1 r2)))

/-- No two rows have the same value in column `col`. -/
def uniqueOn (col : String) (rows : List Row) : Prop :=
  rows.Pairwise (fun r1 r2 => r1 col ≠ r2 col)

instance (col : String) (rows : List Row) : Decidable (uniqueOn col rows) :=
  inferInstanceAs (Decidable (rows.Pairwise (fun (r1 r2 : Row) => r1 col ≠ r2 col)))

end timescale

/-! ## Decimal numerals -/

/-- An ASCII decimal digit, `'0'` to `'9'`. -/
def isDigit (c : Byte) : Prop := 48 ≤ c.val ∧ c.val ≤ 57

instance (c : Byte) : Decidable (isDigit c) :=
  inferInstanceAs (Decidable (48 ≤ c.val ∧ c.val ≤ 57))

/-- The number that the digits of `s` denote, continuing from `n`. -/
def valueFrom (n : Nat) (s : GoString) : Nat :=
  s.foldl (fun a c => a * 10 + (c.val - 48)) n

/-- The number that a string of decimal digits denotes. -/
def decimalValue (s : GoString) : Nat := valueFrom 0 s

/-- A non-empty string of ASCII decimal digits. -/
def isDecimal (s : GoString) : Prop := s ≠ [] ∧ ∀ c ∈ s, isDigit c

instance (s : GoString) : Decidable (isDecimal s) :=
  inferInstanceAs (Decidable (s ≠ [] ∧ ∀ c ∈ s, isDigit c))

/-! ## Concrete instances, used to evaluate the definitions -/

/-- An instance of the passed-through types: no context data, a telemetry record
given by its IP address, page metadata as offset and limit, a page as a list of IP
addresses, errors as their text. -/
def exampleEnv : homing.Env where
  Context := Unit
  Telemetry := GoString
  PageMetadata := Nat × Nat
  TelemetryPage := List GoString
  Error := GoString
  ErrorText := fun e => e
  DurationString := fun _ => str "1ms"

/-- A service that accepts every record and lists nothing, recording its calls. -/
def okService : homing.Service exampleEnv (List (homing.Call exampleEnv)) :=
  homing.recorder exampleEnv (fun _ _ _ _ => ([], none)) (fun _ _ => none)

/-- A service that fails every call with the error `"down"`, recording its calls. -/
def failingService : homing.Service exampleEnv (List (homing.Call exampleEnv)) :=
  homing.recorder exampleEnv (fun _ _ _ _ => ([], some (str "down")))
    (fun _ _ => some (str "down"))

/-- A clock whose `k`-th reading is `k` milliseconds. -/
def exampleClock : time.Clock := ⟨fun k => 1000000 * k, 0⟩

/-- A logging middleware state with an empty log around an inner state. -/
def freshLogging {σ : Type} (s : σ) : api.loggingMiddleware σ := ⟨[], s, exampleClock⟩

/-- A metrics middleware state with no counts around an inner state. -/
def freshMetrics {σ : Type} (s : σ) : api.metricsMiddleware σ := ⟨[], [], s, exampleClock⟩

/-- A world in which the repository cannot be opened (`"no credentials"`) and
everything else works. -/
def worldNoRepo : Main.World exampleEnv Unit Unit (List (homing.Call exampleEnv)) where
  envParseConfig := (⟨str "info", str "", str "cred.json", str "sheet", 0, str "ip.db"⟩, none)
  mflogNew := fun _ => none
  jaegerNewTracer := fun _ _ => none
  sheetsNew := fun _ _ _ => .error (str "no credentials")
  NewLocationService := fun _ => .ok ()
  homingNew := fun _ _ => okService
  MakeMetrics := fun _ _ => (⟨[]⟩, ⟨[]⟩)
  envParseServer := none
  gWait := none

/-- A request with no headers and the given query string. -/
def requestWithQuery (q : String) : http.Request := ⟨fun _ => [], str q⟩

/-- A service whose `Save` fails with an error that quotes the record's IP address,
recording its calls. -/
def quotingService : homing.Service exampleEnv (List (homing.Call exampleEnv)) :=
  homing.recorder exampleEnv (fun _ _ _ _ => ([], none))
    (fun _ (t : GoString) => some (str "duplicate key ip_address=" ++ t))

/-- A service whose `GetAll` fails with an error that depends on the token: one text
for the token `"a"`, the text `"y"` for every other token. -/
def tokenEchoService : homing.Service exampleEnv (List (homing.Call exampleEnv)) :=
  homing.recorder exampleEnv
    (fun _ _ token _ =>
      ([], some (if token = str "a" then str "x took 1ms to complete with error: y"
        else str "y")))
    (fun _ _ => none)

/-- A telemetry row with the given id and IP address, coordinates 0, and the other
columns null. -/
def exampleRow (id : Nat) (ip : String) : timescale.Row := fun k =>
  if k = "id" then some (.UUID id)
  else if k = "ip_address" then some (.TEXT ip)
  else if k = "longitude" then some (.FLOAT 0)
  else if k = "latitude" then some (.FLOAT 0)
  else none

/-! ## Lemmas -/

theorem le_valueFrom (s : GoString) : ∀ n, n ≤ valueFrom n s := by
  induction s with
  | nil => intro n; simp [valueFrom]
  | cons c rest ih =>
    intro n
    have h := ih (n * 10 + (c.val - 48))
    simp only [valueFrom, List.foldl_cons] at h ⊢
    omega

theorem parseUintLoop_ok (s : GoString) : ∀ n, n < 2 ^ 64 →
    (∀ c ∈ s, isDigit c) → valueFrom n s < 2 ^ 64 →
    strconv.parseUintLoop 10 (strconv.maxUint64 / 10 + 1) ((2 ^ 64 - 1) % 2 ^ 64) n s
      = (valueFrom n s, none) := by
  induction s with
  | nil => intro n _ _ _; simp [strconv.parseUintLoop, valueFrom]
  | cons c rest ih =>
    intro n hn hd hv
    have hc : isDigit c := hd c (List.mem_cons_self _ _)
    have hrest : ∀ x ∈ rest, isDigit x := fun x hx => hd x (List.mem_cons_of_mem _ hx)
    have hv' : valueFrom (n * 10 + (c.val - 48)) rest < 2 ^ 64 := by
      simpa [valueFrom] using hv
    have hle := le_valueFrom rest (n * 10 + (c.val - 48))
    unfold isDigit at hc
    have hn1 : n * 10 + (c.val - 48) < 2 ^ 64 := lt_of_le_of_lt hle hv'
    have ih' := ih (n * 10 + (c.val - 48)) hn1 hrest hv'
    have e1 : (c.val + 256 - 48) % 256 = c.val - 48 := by omega
    have e2 : (n * 10) % 2 ^ 64 = n * 10 := Nat.mod_eq_of_lt (by omega)
    have e3 : (n * 10 + (c.val - 48)) % 2 ^ 64 = n * 10 + (c.val - 48) :=
      Nat.mod_eq_of_lt hn1
    have hcut : ¬ n ≥ strconv.maxUint64 / 10 + 1 := by
      simp only [strconv.maxUint64]; norm_num at hn1 ⊢; omega
    have hmax : ¬ (n * 10 + (c.val - 48) < n * 10 ∨
        n * 10 + (c.val - 48) > (2 ^ 64 - 1) % 2 ^ 64) := by
      norm_num at hn1 ⊢; omega
    have hd10 : ¬ (c.val - 48 ≥ 10 % 256) := by omega
    rw [strconv.parseUintLoop]
    simp only [hc, and_self, if_true, e1, e2, e3, hcut, hmax, hd10, if_false]
    rw [ih']
    simp [valueFrom]

theorem parseUintLoop_err (s : GoString) : ∀ n, n < 2 ^ 64 →
    ¬ ((∀ c ∈ s, isDigit c) ∧ valueFrom n s < 2 ^ 64) →
    ∃ v e, strconv.parseUintLoop 10 (strconv.maxUint64 / 10 + 1) ((2 ^ 64 - 1) % 2 ^ 64) n s
      = (v, some e) := by
  induction s with
  | nil =>
    intro n hn h
    exact absurd ⟨by simp, by simpa [valueFrom] using hn⟩ h
  | cons c rest ih =>
    intro n hn h
    rw [strconv.parseUintLoop]
    by_cases hc : 48 ≤ c.val ∧ c.val ≤ 57
    · have e1 : (c.val + 256 - 48) % 256 = c.val - 48 := by omega
      have hd10 : ¬ (c.val - 48 ≥ 10 % 256) := by omega
      simp only [hc, and_self, if_true, e1, hd10, if_false]
      by_cases hcut : n ≥ strconv.maxUint64 / 10 + 1
      · rw [if_pos hcut]
        exact ⟨_, _, rfl⟩
      · simp only [hcut, if_false]
        have hn10 : n * 10 < 2 ^ 64 := by
          simp only [strconv.maxUint64] at hcut; norm_num at hcut ⊢; omega
        have e2 : (n * 10) % 2 ^ 64 = n * 10 := Nat.mod_eq_of_lt hn10
        rw [e2]
        by_cases hov : (n * 10 + (c.val - 48)) % 2 ^ 64 < n * 10 ∨
            (n * 10 + (c.val - 48)) % 2 ^ 64 > (2 ^ 64 - 1) % 2 ^ 64
        · rw [if_pos hov]
          exact ⟨_, _, rfl⟩
        · simp only [hov, if_false]
          have hn1 : n * 10 + (c.val - 48) < 2 ^ 64 := by
            by_contra hge
            apply hov
            left
            norm_num at hge hn10 ⊢
            omega
          have e3 : (n * 10 + (c.val - 48)) % 2 ^ 64 = n * 10 + (c.val - 48) :=
            Nat.mod_eq_of_lt hn1
          rw [e3]
          apply ih _ hn1
          intro hh
          apply h
          refine ⟨?_, by simpa [valueFrom] using hh.2⟩
          intro x hx
          rcases List.mem_cons.mp hx with rfl | hx
          · exact hc
          · exact hh.1 x hx
    · simp only [hc, if_false]
      by_cases hl : 97 ≤ strconv.lower c ∧ strconv.lower c ≤ 122
      · have hd10 : (strconv.lower c + 256 - 97 + 10) % 256 ≥ 10 % 256 := by omega
        rw [if_pos hl]
        rw [if_pos hd10]
        exact ⟨_, _, rfl⟩
      · rw [if_neg hl]
        exact ⟨_, _, rfl⟩

theorem ParseUint_ok (s : GoString) (h : isDecimal s) (hv : decimalValue s < 2 ^ 64) :
    strconv.ParseUint s 10 64 = (decimalValue s, none) := by
  unfold strconv.ParseUint
  rw [if_neg h.1]
  exact parseUintLoop_ok s 0 (by norm_num) h.2 hv

theorem ParseUint_err (s : GoString) (h : ¬ (isDecimal s ∧ decimalValue s < 2 ^ 64)) :
    ∃ v e, strconv.ParseUint s 10 64 = (v, some e) := by
  unfold strconv.ParseUint
  by_cases hs : s = []
  · rw [if_pos hs]; exact ⟨_, _, rfl⟩
  · rw [if_neg hs]
    apply parseUintLoop_err s 0 (by norm_num)
    intro hh
    exact h ⟨⟨hs, hh.1⟩, hh.2⟩

theorem ReadUintQuery_single_ok (r : http.Request) (key s : GoString) (def_ : Nat)
    (hq : bone.GetQuery r key = [s]) (h : isDecimal s) (hv : decimalValue s < 2 ^ 64) :
    api.ReadUintQuery r key def_ = (decimalValue s, none) := by
  simp [api.ReadUintQuery, hq, ParseUint_ok s h hv]

theorem ReadUintQuery_single_err (r : http.Request) (key s : GoString) (def_ : Nat)
    (hq : bone.GetQuery r key = [s]) (h : ¬ (isDecimal s ∧ decimalValue s < 2 ^ 64)) :
    api.ReadUintQuery r key def_ = (0, some .ErrInvalidQueryParams) := by
  obtain ⟨v, e, he⟩ := ParseUint_err s h
  simp [api.ReadUintQuery, hq, he]

theorem Split_ne_nil (sep : Byte) (s : GoString) : strings.Split sep s ≠ [] := by
  induction s with
  | nil => simp [strings.Split]
  | cons c rest ih =>
    rw [strings.Split]
    by_cases hc : c = sep
    · simp [hc]
    · rw [if_neg hc]
      cases h : strings.Split sep rest with
      | nil => simp
      | cons piece pieces => simp

theorem Split_of_not_mem (sep : Byte) (s : GoString) (h : sep ∉ s) :
    strings.Split sep s = [s] := by
  induction s with
  | nil => simp [strings.Split]
  | cons c rest ih =>
    have hc : ¬ c = sep := fun e => h (by simp [e])
    have hrest : sep ∉ rest := fun e => h (List.mem_cons_of_mem _ e)
    rw [strings.Split, if_neg hc, ih hrest]

theorem Split_length_of_mem (sep : Byte) (s : GoString) (h : sep ∈ s) :
    2 ≤ (strings.Split sep s).length := by
  induction s with
  | nil => simp at h
  | cons c rest ih =>
    rw [strings.Split]
    by_cases hc : c = sep
    · rw [if_pos hc]
      have := List.length_pos.mpr (Split_ne_nil sep rest)
      simp only [List.length_cons]
      omega
    · rw [if_neg hc]
      have hrest : sep ∈ rest := by
        rcases List.mem_cons.mp h with e | e
        · exact absurd e.symm hc
        · exact e
      have := ih hrest
      cases hs : strings.Split sep rest with
      | nil => rw [hs] at this; simp at this
      | cons piece pieces => rw [hs] at this; simpa using this

theorem length_le_flatMap_Split (sep : Byte) (l : List GoString) :
    l.length ≤ (l.flatMap (fun item => strings.Split sep item)).length := by
  induction l with
  | nil => simp
  | cons x xs ih =>
    have := List.length_pos.mpr (Split_ne_nil sep x)
    simp only [List.flatMap_cons, List.length_append, List.length_cons]
    omega

theorem GetQuery_of_parsed (r : http.Request) (key : GoString)
    (hp : (url.ParseQuery r.RawQuery).2 = none) :
    bone.GetQuery r key
      = ((url.ParseQuery r.RawQuery).1 key).flatMap (fun item => strings.Split 44 item) := by
  unfold bone.GetQuery bone.extractQueries
  rcases h : url.ParseQuery r.RawQuery with ⟨q, e⟩
  rw [h] at hp
  simp only at hp
  subst hp
  rfl

theorem GetQuery_of_parse_error (r : http.Request) (key : GoString)
    (hp : (url.ParseQuery r.RawQuery).2 ≠ none) : bone.GetQuery r key = [] := by
  unfold bone.GetQuery bone.extractQueries
  rcases h : url.ParseQuery r.RawQuery with ⟨q, e⟩
  rw [h] at hp
  cases e with
  | none => exact absurd rfl hp
  | some e => rfl

theorem GetQuery_nil_of_no_value (r : http.Request) (key : GoString)
    (hq : (url.ParseQuery r.RawQuery).1 key = []) : bone.GetQuery r key = [] := by
  by_cases hp : (url.ParseQuery r.RawQuery).2 = none
  · rw [GetQuery_of_parsed r key hp, hq]
    rfl
  · exact GetQuery_of_parse_error r key hp

theorem GetQuery_single (r : http.Request) (key s : GoString)
    (hp : (url.ParseQuery r.RawQuery).2 = none)
    (hq : (url.ParseQuery r.RawQuery).1 key = [s]) :
    bone.GetQuery r key = strings.Split 44 s := by
  rw [GetQuery_of_parsed r key hp, hq]
  simp

theorem ReadUintQuery_many (r : http.Request) (key : GoString) (def_ : Nat)
    (h : 2 ≤ (bone.GetQuery r key).length) :
    api.ReadUintQuery r key def_ = (0, some .ErrInvalidQueryParams) := by
  have h1 : (bone.GetQuery r key).length > 1 := by omega
  simp only [api.ReadUintQuery, h1, if_true]

theorem ReadStringQuery_many (r : http.Request) (key sdef : GoString)
    (h : 2 ≤ (bone.GetQuery r key).length) :
    api.ReadStringQuery r key sdef = ([], some .ErrInvalidQueryParams) := by
  have h1 : (bone.GetQuery r key).length > 1 := by omega
  simp only [api.ReadStringQuery, h1, if_true]

theorem comma_not_digit : ¬ isDigit (44 : Byte) := by decide

theorem loggingSave_eq {E : homing.Env} {σ : Type} (svc : homing.Service E σ)
    (ctx : E.Context) (t : E.Telemetry) (lm : api.loggingMiddleware σ) :
    (api.LoggingMiddleware svc).Save ctx t lm =
      ((svc.Save ctx t lm.svc).1,
        { hommingLogger := api.logOutcome E lm.hommingLogger
            (api.saveMessage E (time.Since (time.Now lm.clock).1 (time.Now lm.clock).2).1)
            (svc.Save ctx t lm.svc).1,
          svc := (svc.Save ctx t lm.svc).2,
          clock := (time.Since (time.Now lm.clock).1 (time.Now lm.clock).2).2 }) := rfl

theorem loggingGetAll_eq {E : homing.Env} {σ : Type} (svc : homing.Service E σ)
    (ctx : E.Context) (repo token : GoString) (pm : E.PageMetadata)
    (lm : api.loggingMiddleware σ) :
    (api.LoggingMiddleware svc).GetAll ctx repo token pm lm =
      ((svc.GetAll ctx repo token pm lm.svc).1,
        { hommingLogger := api.logOutcome E lm.hommingLogger
            (api.getAllMessage E token
              (time.Since (time.Now lm.clock).1 (time.Now lm.clock).2).1)
            (svc.GetAll ctx repo token pm lm.svc).1.2,
          svc := (svc.GetAll ctx repo token pm lm.svc).2,
          clock := (time.Since (time.Now lm.clock).1 (time.Now lm.clock).2).2 }) := rfl

theorem metricsSave_eq {E : homing.Env} {σ : Type} (svc : homing.Service E σ)
    (counter latency : metrics.Handle)
    (ctx : E.Context) (t : E.Telemetry) (mm : api.metricsMiddleware σ) :
    (api.MetricsMiddleware svc counter latency).Save ctx t mm =
      ((svc.Save ctx t mm.svc).1,
        { counter := mm.counter ++ [(counter.lvs ++ [str "method", str "save"], 1)],
          latency := mm.latency ++ [(latency.lvs ++ [str "method", str "save"],
            (time.Since (time.Now mm.clock).1 (time.Now mm.clock).2).1)],
          svc := (svc.Save ctx t mm.svc).2,
          clock := (time.Since (time.Now mm.clock).1 (time.Now mm.clock).2).2 }) := rfl

theorem metricsGetAll_eq {E : homing.Env} {σ : Type} (svc : homing.Service E σ)
    (counter latency : metrics.Handle)
    (ctx : E.Context) (repo token : GoString) (pm : E.PageMetadata)
    (mm : api.metricsMiddleware σ) :
    (api.MetricsMiddleware svc counter latency).GetAll ctx repo token pm mm =
      ((svc.GetAll ctx repo token pm mm.svc).1,
        { counter := mm.counter ++ [(counter.lvs ++ [str "method", str "get all"], 1)],
          latency := mm.latency ++ [(latency.lvs ++ [str "method", str "get all"],
            (time.Since (time.Now mm.clock).1 (time.Now mm.clock).2).1)],
          svc := (svc.GetAll ctx repo token pm mm.svc).2,
          clock := (time.Since (time.Now mm.clock).1 (time.Now mm.clock).2).2 }) := rfl

theorem counter_value_append (st : metrics.Counter) (lvs lvs' : List GoString) (d : Nat) :
    metrics.Counter.value (st ++ [(lvs', d)]) lvs =
      metrics.Counter.value st lvs + (if lvs' = lvs then d else 0) := by
  unfold metrics.Counter.value
  by_cases h : lvs' = lvs <;> simp [List.filter_append, List.filter_cons, h]

theorem histogram_count_append (st : metrics.Histogram) (lvs lvs' : List GoString)
    (d : time.Duration) :
    metrics.Histogram.count (st ++ [(lvs', d)]) lvs =
      metrics.Histogram.count st lvs + (if lvs' = lvs then 1 else 0) := by
  unfold metrics.Histogram.count
  by_cases h : lvs' = lvs <;> simp [List.filter_append, List.filter_cons, h]

theorem save_labels_ne_getAll (lvs : List GoString) :
    lvs ++ [str "method", str "save"] ≠ lvs ++ [str "method", str "get all"] := by
  intro h
  have h' := List.append_cancel_left h
  revert h'
  decide

theorem logOutcome_entry (E : homing.Env) (l : logger.Logger) (message : GoString)
    (err : Option E.Error) :
    ∃ e : logger.Entry, api.logOutcome E l message err = l ++ [e] ∧
      (e.level = .Warn ∨ e.level = .Info) ∧
      (e.level = .Warn ↔ err ≠ none) ∧ (e.level = .Info ↔ err = none) ∧
      (∀ x, err = some x →
        e.message = message ++ str " with error: " ++ E.ErrorText x ++ str ".") ∧
      (err = none → e.message = message ++ str " without errors.") := by
  cases err with
  | none =>
    exact ⟨⟨.Info, message ++ str " without errors."⟩, rfl, Or.inr rfl,
      by simp, by simp, by simp, fun _ => rfl⟩
  | some x =>
    refine ⟨⟨.Warn, message ++ str " with error: " ++ E.ErrorText x ++ str "."⟩, rfl,
      Or.inl rfl, by simp, by simp, ?_, by simp⟩
    intro y hy
    cases hy
    rfl

theorem getAllMessage_token_injective (E : homing.Env) (t1 t2 : GoString)
    (d : time.Duration) (s : GoString)
    (h : api.getAllMessage E t1 d ++ s = api.getAllMessage E t2 d ++ s) : t1 = t2 := by
  simp only [api.getAllMessage, List.append_assoc] at h
  exact List.append_cancel_right (List.append_cancel_left h)

theorem newService_result {E : homing.Env} {Repo Loc σ : Type} (w : Main.World E Repo Loc σ)
    (ipDB credFile spreadsheetID : GoString) (sheetID : Int) (tr : List Main.Event) :
    (∃ err, w.sheetsNew credFile spreadsheetID sheetID = .error err ∧
      Main.newService w ipDB credFile spreadsheetID sheetID tr
        = ((none, some err), tr ++ [.sheetsNew credFile spreadsheetID sheetID])) ∨
    (∃ repo err, w.sheetsNew credFile spreadsheetID sheetID = .ok repo ∧
      w.NewLocationService ipDB = .error err ∧
      Main.newService w ipDB credFile spreadsheetID sheetID tr
        = ((none, some err), tr ++ [.sheetsNew credFile spreadsheetID sheetID] ++
            [.NewLocationService ipDB])) ∨
    (∃ repo locsvc svc, w.sheetsNew credFile spreadsheetID sheetID = .ok repo ∧
      w.NewLocationService ipDB = .ok locsvc ∧
      Main.newService w ipDB credFile spreadsheetID sheetID tr
        = ((some svc, none), tr ++ [.sheetsNew credFile spreadsheetID sheetID] ++
            [.NewLocationService ipDB] ++ [.homingNew] ++
            [.MakeMetrics Main.svcName (str "api")])) := by
  unfold Main.newService
  cases h1 : w.sheetsNew credFile spreadsheetID sheetID with
  | error err => exact Or.inl ⟨err, rfl, rfl⟩
  | ok repo =>
    cases h2 : w.NewLocationService ipDB with
    | error err => exact Or.inr (Or.inl ⟨repo, err, rfl, rfl, rfl⟩)
    | ok locsvc => exact Or.inr (Or.inr ⟨repo, locsvc, _, rfl, rfl, rfl⟩)

theorem main_of_newService_error {E : homing.Env} {Repo Loc σ : Type}
    (w : Main.World E Repo Loc σ) (cfg : Main.config) (err : E.Error)
    (x : Option (Main.Svc E σ)) (tr : List Main.Event)
    (h0 : w.envParseConfig = (cfg, none)) (h1 : w.mflogNew cfg.LogLevel = none)
    (h2 : w.jaegerNewTracer (str "users") cfg.JaegerURL = none)
    (h3 : Main.newService w cfg.IPDatabaseFile cfg.GCPCredFile cfg.SpreadsheetId cfg.SheetId
        ([.envParseConfig] ++ [.mflogNew cfg.LogLevel] ++
          [.jaegerNewTracer (str "users") cfg.JaegerURL]) = ((x, some err), tr)) :
    Main.main w = (tr ++ [.logPrintf (str "failed to initiailize service: " ++ E.ErrorText err),
      .closerClose], .returned) := by
  unfold Main.main
  rw [h0]
  simp only [h1, h2, h3]

/-! ## Properties -/

/-- C2: `ExtractBearerToken` returns `""` when the first `Authorization` header value
does not start with `"Bearer "` (also when the header is absent), and otherwise that
value with the prefix removed once: a header `"Bearer " ++ t` yields `t`. -/
theorem C2_ExtractBearerToken (r : http.Request) :
    (¬ api.BearerPrefix <+: http.Header.Get r.Header (str "Authorization") →
      api.ExtractBearerToken r = str "") ∧
    (r.Header (str "Authorization") = [] → api.ExtractBearerToken r = str "") ∧
    (∀ t : GoString, http.Header.Get r.Header (str "Authorization") = str "Bearer " ++ t →
      api.ExtractBearerToken r = t) ∧
    (∀ (t : GoString) (more : List GoString),
      r.Header (str "Authorization") = (str "Bearer " ++ t) :: more →
      api.ExtractBearerToken r = t) := by
  have hpre : ∀ s : GoString, strings.HasPrefix s api.BearerPrefix = true ↔
      api.BearerPrefix <+: s := by
    intro s
    simp only [strings.HasPrefix, Bool.and_eq_true, decide_eq_true_eq]
    constructor
    · rintro ⟨_, h⟩
      rw [← h]
      exact List.take_prefix _ _
    · intro h
      refine ⟨h.length_le, ?_⟩
      obtain ⟨t, rfl⟩ := h
      simp
  have hyes : ∀ t : GoString,
      http.Header.Get r.Header (str "Authorization") = str "Bearer " ++ t →
      api.ExtractBearerToken r = t := by
    intro t ht
    have hp : strings.HasPrefix (str "Bearer " ++ t) api.BearerPrefix = true :=
      (hpre _).2 ⟨t, rfl⟩
    simp only [api.ExtractBearerToken, ht, hp, strings.TrimPrefix]
    simp [api.BearerPrefix]
  refine ⟨?_, ?_, hyes, ?_⟩
  · intro h
    have hp : strings.HasPrefix (http.Header.Get r.Header (str "Authorization"))
        api.BearerPrefix = false := by
      rw [← Bool.not_eq_true, hpre]
      exact h
    simp only [api.ExtractBearerToken, hp]
    rfl
  · intro h
    have hg : http.Header.Get r.Header (str "Authorization") = [] := by
      simp [http.Header.Get, h]
    simp only [api.ExtractBearerToken, hg]
    rfl
  · intro t more h
    apply hyes
    simp [http.Header.Get, h]

/-- C2, at a request whose header is `Authorization: Bearer Bearer abc`: the prefix is
removed once. -/
theorem C2_ExtractBearerToken_witness :
    api.ExtractBearerToken
      ⟨fun k => if k = str "Authorization" then [str "Bearer Bearer abc"] else [], str ""⟩
      = str "Bearer abc" :=
  (C2_ExtractBearerToken
    ⟨fun k => if k = str "Authorization" then [str "Bearer Bearer abc"] else [],
      str ""⟩).2.2.1 (str "Bearer abc") (by decide)

/-- C3: when the query has no value for `key`, `ReadUintQuery` returns `(def, nil)`
and `ReadStringQuery` returns `(def, nil)`. -/
theorem C3_missing_parameter_gives_default (r : http.Request) (key : GoString)
    (def_ : Nat) (sdef : GoString) (hq : bone.GetQuery r key = []) :
    api.ReadUintQuery r key def_ = (def_, none) ∧
    api.ReadStringQuery r key sdef = (sdef, none) := by
  simp [api.ReadUintQuery, api.ReadStringQuery, hq]

/-- C3, at a request with an empty query and the defaults 10 and `"asc"`. -/
theorem C3_missing_parameter_gives_default_witness :
    api.ReadUintQuery (requestWithQuery "") (str "limit") 10 = (10, none) ∧
    api.ReadStringQuery (requestWithQuery "") (str "limit") (str "asc")
      = (str "asc", none) :=
  C3_missing_parameter_gives_default (requestWithQuery "") (str "limit") 10 (str "asc")
    (by decide)

/-- C4, as stated, fails twice.  In the query `order=a,b` the key `order` has exactly
one value, `a,b`, yet `ReadStringQuery` returns `("", ErrInvalidQueryParams)`:
`bone.GetQuery` splits the value at the comma.  In the query `limit=1&limit=2&x=%zz`
the key `limit` has two values, yet `ReadUintQuery` with the default 10 returns
`(10, nil)`: the bad escape `%zz` makes `bone.GetQuery` return no values at all. -/
theorem C4_repeated_parameter_counterexample :
    ((url.ParseQuery (requestWithQuery "order=a,b").RawQuery).1 (str "order") = [str "a,b"] ∧
      api.ReadStringQuery (requestWithQuery "order=a,b") (str "order") (str "x")
        = (str "", some .ErrInvalidQueryParams)) ∧
    ((url.ParseQuery (requestWithQuery "limit=1&limit=2&x=%zz").RawQuery).1 (str "limit")
        = [str "1", str "2"] ∧
      api.ReadUintQuery (requestWithQuery "limit=1&limit=2&x=%zz") (str "limit") 10
        = (10, none)) := by
  decide

/-- C4, amended: for a request whose query string `url.ParseQuery` parses without
error, when the query has two or more values for `key`, or one value that contains a
comma, `ReadUintQuery` returns `(0, ErrInvalidQueryParams)` and `ReadStringQuery`
returns `("", ErrInvalidQueryParams)`, whatever the values and the defaults; with
exactly one value that contains no comma `ReadStringQuery` returns that value and a
nil error. -/
theorem C4_repeated_parameter_parsed_query (r : http.Request) (key : GoString)
    (hp : (url.ParseQuery r.RawQuery).2 = none) :
    ((2 ≤ ((url.ParseQuery r.RawQuery).1 key).length ∨
        ∃ v, (url.ParseQuery r.RawQuery).1 key = [v] ∧ (44 : Byte) ∈ v) →
      (∀ def_ : Nat, api.ReadUintQuery r key def_ = (0, some .ErrInvalidQueryParams)) ∧
      (∀ sdef : GoString,
        api.ReadStringQuery r key sdef = (str "", some .ErrInvalidQueryParams))) ∧
    (∀ v : GoString, (url.ParseQuery r.RawQuery).1 key = [v] → (44 : Byte) ∉ v →
      ∀ sdef : GoString, api.ReadStringQuery r key sdef = (v, none)) := by
  constructor
  · intro h
    have hmany : 2 ≤ (bone.GetQuery r key).length := by
      rcases h with h | ⟨v, hv, hm⟩
      · rw [GetQuery_of_parsed r key hp]
        exact le_trans h (length_le_flatMap_Split 44 _)
      · rw [GetQuery_single r key v hp hv]
        exact Split_length_of_mem 44 v hm
    exact ⟨fun def_ => ReadUintQuery_many r key def_ hmany,
      fun sdef => ReadStringQuery_many r key sdef hmany⟩
  · intro v hv hm sdef
    have hg : bone.GetQuery r key = [v] := by
      rw [GetQuery_single r key v hp hv, Split_of_not_mem 44 v hm]
    simp [api.ReadStringQuery, hg]

/-- C4, amended, at the query `?limit=1&limit=2` with the defaults 10 and `"x"`. -/
theorem C4_repeated_parameter_parsed_query_witness :
    api.ReadUintQuery (requestWithQuery "limit=1&limit=2") (str "limit") 10
      = (0, some .ErrInvalidQueryParams) ∧
    api.ReadStringQuery (requestWithQuery "limit=1&limit=2") (str "limit") (str "x")
      = (str "", some .ErrInvalidQueryParams) :=
  ⟨((C4_repeated_parameter_parsed_query (requestWithQuery "limit=1&limit=2") (str "limit")
      (by decide)).1 (Or.inl (by decide))).1 10,
   ((C4_repeated_parameter_parsed_query (requestWithQuery "limit=1&limit=2") (str "limit")
      (by decide)).1 (Or.inl (by decide))).2 (str "x")⟩

/-- C5: the middleware is transparent.  On `LoggingMiddleware(svc, l)`, on
`MetricsMiddleware(svc, c, h)` and on their composition as `newService` builds it,
`Save` and `GetAll` return exactly what `svc` returns for the same arguments, and the
state of `svc` afterwards is the state after exactly one such call of `svc`; for a
service that records its calls, exactly one call with the same arguments is added;
and the service `newService` returns is that composition. -/
theorem C5_middleware_transparent {E : homing.Env} {σ : Type} (svc : homing.Service E σ)
    (counter latency : metrics.Handle) :
    (∀ ctx t (lm : api.loggingMiddleware σ),
      ((api.LoggingMiddleware svc).Save ctx t lm).1 = (svc.Save ctx t lm.svc).1 ∧
      ((api.LoggingMiddleware svc).Save ctx t lm).2.svc = (svc.Save ctx t lm.svc).2) ∧
    (∀ ctx repo token pm (lm : api.loggingMiddleware σ),
      ((api.LoggingMiddleware svc).GetAll ctx repo token pm lm).1
        = (svc.GetAll ctx repo token pm lm.svc).1 ∧
      ((api.LoggingMiddleware svc).GetAll ctx repo token pm lm).2.svc
        = (svc.GetAll ctx repo token pm lm.svc).2) ∧
    (∀ ctx t (mm : api.metricsMiddleware σ),
      ((api.MetricsMiddleware svc counter latency).Save ctx t mm).1
        = (svc.Save ctx t mm.svc).1 ∧
      ((api.MetricsMiddleware svc counter latency).Save ctx t mm).2.svc
        = (svc.Save ctx t mm.svc).2) ∧
    (∀ ctx repo token pm (mm : api.metricsMiddleware σ),
      ((api.MetricsMiddleware svc counter latency).GetAll ctx repo token pm mm).1
        = (svc.GetAll ctx repo token pm mm.svc).1 ∧
      ((api.MetricsMiddleware svc counter latency).GetAll ctx repo token pm mm).2.svc
        = (svc.GetAll ctx repo token pm mm.svc).2) ∧
    (∀ ctx t (st : api.loggingMiddleware (api.metricsMiddleware σ)),
      ((api.LoggingMiddleware (api.MetricsMiddleware svc counter latency)).Save ctx t st).1
        = (svc.Save ctx t st.svc.svc).1 ∧
      ((api.LoggingMiddleware (api.MetricsMiddleware svc counter latency)).Save ctx t st).2.svc.svc
        = (svc.Save ctx t st.svc.svc).2) ∧
    (∀ ctx repo token pm (st : api.loggingMiddleware (api.metricsMiddleware σ)),
      ((api.LoggingMiddleware (api.MetricsMiddleware svc counter latency)).GetAll
          ctx repo token pm st).1
        = (svc.GetAll ctx repo token pm st.svc.svc).1 ∧
      ((api.LoggingMiddleware (api.MetricsMiddleware svc counter latency)).GetAll
          ctx repo token pm st).2.svc.svc
        = (svc.GetAll ctx repo token pm st.svc.svc).2) ∧
    (∀ getAll save ctx t (st : api.loggingMiddleware (api.metricsMiddleware (List (homing.Call E)))),
      ((api.LoggingMiddleware (api.MetricsMiddleware (homing.recorder E getAll save)
          counter latency)).Save ctx t st).2.svc.svc = st.svc.svc ++ [.Save ctx t]) ∧
    (∀ getAll save ctx repo token pm
        (st : api.loggingMiddleware (api.metricsMiddleware (List (homing.Call E)))),
      ((api.LoggingMiddleware (api.MetricsMiddleware (homing.recorder E getAll save)
          counter latency)).GetAll ctx repo token pm st).2.svc.svc
        = st.svc.svc ++ [.GetAll ctx repo token pm]) ∧
    (∀ (Repo Loc : Type) (w : Main.World E Repo Loc σ) ipDB credFile spreadsheetID sheetID tr
        (built : Main.Svc E σ),
      (Main.newService w ipDB credFile spreadsheetID sheetID tr).1.1 = some built →
      ∃ repo locsvc, built = api.LoggingMiddleware (api.MetricsMiddleware
        (w.homingNew repo locsvc) (w.MakeMetrics Main.svcName (str "api")).1
        (w.MakeMetrics Main.svcName (str "api")).2)) := by
  refine ⟨?_, ?_, ?_, ?_, ?_, ?_, ?_, ?_, ?_⟩
  · intro ctx t lm
    rw [loggingSave_eq]
    exact ⟨rfl, rfl⟩
  · intro ctx repo token pm lm
    rw [loggingGetAll_eq]
    exact ⟨rfl, rfl⟩
  · intro ctx t mm
    rw [metricsSave_eq]
    exact ⟨rfl, rfl⟩
  · intro ctx repo token pm mm
    rw [metricsGetAll_eq]
    exact ⟨rfl, rfl⟩
  · intro ctx t st
    rw [loggingSave_eq, metricsSave_eq]
    exact ⟨rfl, rfl⟩
  · intro ctx repo token pm st
    rw [loggingGetAll_eq, metricsGetAll_eq]
    exact ⟨rfl, rfl⟩
  · intro getAll save ctx t st
    rw [loggingSave_eq, metricsSave_eq]
    rfl
  · intro getAll save ctx repo token pm st
    rw [loggingGetAll_eq, metricsGetAll_eq]
    rfl
  · intro Repo Loc w ipDB credFile spreadsheetID sheetID tr built h
    unfold Main.newService at h
    cases h1 : w.sheetsNew credFile spreadsheetID sheetID with
    | error err => simp [h1] at h
    | ok repo =>
      cases h2 : w.NewLocationService ipDB with
      | error err => simp [h1, h2] at h
      | ok locsvc =>
        simp only [h1, h2] at h
        refine ⟨repo, locsvc, ?_⟩
        injection h with h
        exact h.symm

/-- C5, on the composition around a service that fails every call: one `Save` returns
that service's error and makes exactly one call of it. -/
theorem C5_middleware_transparent_witness :
    ((api.LoggingMiddleware (api.MetricsMiddleware failingService ⟨[]⟩ ⟨[]⟩)).Save ()
        (str "10.0.0.1") (freshLogging (freshMetrics []))).1 = some (str "down") ∧
    ((api.LoggingMiddleware (api.MetricsMiddleware failingService ⟨[]⟩ ⟨[]⟩)).Save ()
        (str "10.0.0.1") (freshLogging (freshMetrics []))).2.svc.svc
      = [.Save () (str "10.0.0.1")] :=
  ⟨((C5_middleware_transparent failingService ⟨[]⟩ ⟨[]⟩).2.2.2.2.1 ()
      (str "10.0.0.1") (freshLogging (freshMetrics []))).1,
   (C5_middleware_transparent failingService ⟨[]⟩ ⟨[]⟩).2.2.2.2.2.2.1 _ _ ()
      (str "10.0.0.1") (freshLogging (freshMetrics []))⟩

/-- C6: start-up fails when a collaborator cannot be initialised.  When `sheets.New`
fails, `newService` returns `(nil, err)` with that error and calls nothing else (the
location service is never constructed); when `homing.NewLocationService(ipDB)` fails
it returns `(nil, err)` with that error; it returns a non-nil service with a nil error
exactly when both succeed, and a nil error never comes with a nil service.  When
`newService` returns an error, `main` prints it and returns, and neither builds nor
starts the HTTP server. -/
theorem C6_startup_failure {E : homing.Env} {Repo Loc σ : Type} (w : Main.World E Repo Loc σ)
    (ipDB credFile spreadsheetID : GoString) (sheetID : Int) (tr : List Main.Event) :
    (∀ err, w.sheetsNew credFile spreadsheetID sheetID = .error err →
      Main.newService w ipDB credFile spreadsheetID sheetID tr
        = ((none, some err), tr ++ [.sheetsNew credFile spreadsheetID sheetID])) ∧
    (∀ repo err, w.sheetsNew credFile spreadsheetID sheetID = .ok repo →
      w.NewLocationService ipDB = .error err →
      (Main.newService w ipDB credFile spreadsheetID sheetID tr).1 = (none, some err)) ∧
    (((Main.newService w ipDB credFile spreadsheetID sheetID tr).1.1.isSome = true ∧
        (Main.newService w ipDB credFile spreadsheetID sheetID tr).1.2 = none) ↔
      (∃ repo locsvc, w.sheetsNew credFile spreadsheetID sheetID = .ok repo ∧
        w.NewLocationService ipDB = .ok locsvc)) ∧
    ((Main.newService w ipDB credFile spreadsheetID sheetID tr).1.2 = none ↔
      (Main.newService w ipDB credFile spreadsheetID sheetID tr).1.1.isSome = true) ∧
    (∀ cfg err x tr', w.envParseConfig = (cfg, none) → w.mflogNew cfg.LogLevel = none →
      w.jaegerNewTracer (str "users") cfg.JaegerURL = none →
      Main.newService w cfg.IPDatabaseFile cfg.GCPCredFile cfg.SpreadsheetId cfg.SheetId
        ([.envParseConfig] ++ [.mflogNew cfg.LogLevel] ++
          [.jaegerNewTracer (str "users") cfg.JaegerURL]) = ((x, some err), tr') →
      Main.main w = (tr' ++ [.logPrintf (str "failed to initiailize service: " ++
          E.ErrorText err), .closerClose], .returned) ∧
      Main.Event.httpserverNew ∉ (Main.main w).1 ∧ Main.Event.goStart ∉ (Main.main w).1) := by
  refine ⟨?_, ?_, ?_, ?_, ?_⟩
  · intro err h
    unfold Main.newService
    simp only [h]
  · intro repo err h1 h2
    unfold Main.newService
    simp only [h1, h2]
  · rcases newService_result w ipDB credFile spreadsheetID sheetID tr with
      ⟨err, h1, h⟩ | ⟨repo, err, h1, h2, h⟩ | ⟨repo, locsvc, svc, h1, h2, h⟩
    · rw [h]; simp [h1]
    · rw [h]; simp [h1, h2]
    · rw [h]; simp [h1, h2]
  · rcases newService_result w ipDB credFile spreadsheetID sheetID tr with
      ⟨err, h1, h⟩ | ⟨repo, err, h1, h2, h⟩ | ⟨repo, locsvc, svc, h1, h2, h⟩
    · rw [h]; simp
    · rw [h]; simp
    · rw [h]; simp
  · intro cfg err x tr' h0 h1 h2 h3
    have hm := main_of_newService_error w cfg err x tr' h0 h1 h2 h3
    refine ⟨hm, ?_, ?_⟩
    · rw [hm]
      rcases newService_result w cfg.IPDatabaseFile cfg.GCPCredFile cfg.SpreadsheetId
          cfg.SheetId ([.envParseConfig] ++ [.mflogNew cfg.LogLevel] ++
            [.jaegerNewTracer (str "users") cfg.JaegerURL]) with
        ⟨e, _, h⟩ | ⟨repo, e, _, _, h⟩ | ⟨repo, locsvc, svc, _, _, h⟩
      · rw [h] at h3
        have ht : tr' = _ := (congrArg Prod.snd h3).symm
        simp [ht]
      · rw [h] at h3
        have ht : tr' = _ := (congrArg Prod.snd h3).symm
        simp [ht]
      · rw [h] at h3
        simp at h3
    · rw [hm]
      rcases newService_result w cfg.IPDatabaseFile cfg.GCPCredFile cfg.SpreadsheetId
          cfg.SheetId ([.envParseConfig] ++ [.mflogNew cfg.LogLevel] ++
            [.jaegerNewTracer (str "users") cfg.JaegerURL]) with
        ⟨e, _, h⟩ | ⟨repo, e, _, _, h⟩ | ⟨repo, locsvc, svc, _, _, h⟩
      · rw [h] at h3
        have ht : tr' = _ := (congrArg Prod.snd h3).symm
        simp [ht]
      · rw [h] at h3
        have ht : tr' = _ := (congrArg Prod.snd h3).symm
        simp [ht]
      · rw [h] at h3
        simp at h3

/-- C6, in a world whose repository cannot be opened: `newService` returns that error
after the one call of `sheets.New`, and `main` returns without an HTTP server. -/
theorem C6_startup_failure_witness :
    Main.newService worldNoRepo (str "ip.db") (str "cred.json") (str "sheet") 0 []
      = ((none, some (str "no credentials")),
          [] ++ [.sheetsNew (str "cred.json") (str "sheet") 0]) ∧
    Main.Event.httpserverNew ∉ (Main.main worldNoRepo).1 ∧
    Main.Event.goStart ∉ (Main.main worldNoRepo).1 :=
  ⟨(C6_startup_failure worldNoRepo (str "ip.db") (str "cred.json") (str "sheet") 0 []).1
      (str "no credentials") rfl,
   ((C6_startup_failure worldNoRepo (str "ip.db") (str "cred.json") (str "sheet") 0
      []).2.2.2.2 worldNoRepo.envParseConfig.1 (str "no credentials") none _ rfl rfl rfl rfl).2⟩

/-- C7, as stated, fails: two rows with different ids and the same `ip_address`
satisfy every declared constraint of the table of migration `telemetry_1`. -/
theorem C7_ip_address_unique_counterexample :
    timescale.satisfies timescale.telemetry
        [exampleRow 1 "10.0.0.1", exampleRow 2 "10.0.0.1"] ∧
    ¬ timescale.uniqueOn "ip_address" [exampleRow 1 "10.0.0.1", exampleRow 2 "10.0.0.1"] := by
  decide

/-- C7, amended: in every state the table of migration `telemetry_1` admits, no two
rows have the same `id` (the primary key), and `id`, `ip_address`, `longitude` and
`latitude` are not null in any row. -/
theorem C7_declared_constraints (rows : List timescale.Row)
    (h : timescale.satisfies timescale.telemetry rows) :
    timescale.uniqueOn "id" rows ∧
    ∀ r ∈ rows, (r "id").isSome = true ∧ (r "ip_address").isSome = true ∧
      (r "longitude").isSome = true ∧ (r "latitude").isSome = true := by
  obtain ⟨hrow, hpk, hpw⟩ := h
  constructor
  · refine List.Pairwise.imp ?_ hpw
    intro r1 r2 hne heq
    apply hne
    intro k hk
    have hk' : k = "id" := by simpa [timescale.telemetry] using hk
    rw [hk']
    exact heq
  · intro r hr
    have hnn : ∀ (n : String) (ty : timescale.ColType),
        (⟨n, ty, true⟩ : timescale.Column) ∈ timescale.telemetry.columns →
        (r n).isSome = true := by
      intro n ty hmem
      have hc := hrow r hr ⟨n, ty, true⟩ hmem
      cases hv : r n with
      | none => simp [timescale.cellOk, hv] at hc
      | some v => rfl
    refine ⟨hpk r hr "id" (by simp [timescale.telemetry]),
      hnn "ip_address" .TEXT (by simp [timescale.telemetry]),
      hnn "longitude" .FLOAT (by simp [timescale.telemetry]),
      hnn "latitude" .FLOAT (by simp [timescale.telemetry])⟩

/-- C7, amended, on two rows with the ids 1 and 2 and the same IP address. -/
theorem C7_declared_constraints_witness :
    timescale.uniqueOn "id" [exampleRow 1 "10.0.0.1", exampleRow 2 "10.0.0.1"] ∧
    ∀ r ∈ [exampleRow 1 "10.0.0.1", exampleRow 2 "10.0.0.1"],
      (r "id").isSome = true ∧ (r "ip_address").isSome = true ∧
      (r "longitude").isSome = true ∧ (r "latitude").isSome = true :=
  C7_declared_constraints [exampleRow 1 "10.0.0.1", exampleRow 2 "10.0.0.1"] (by decide)

/-- C8: every `Save` on `MetricsMiddleware(svc, counter, latency)` adds exactly 1 to
the counter labelled `("method", "save")` and records exactly one latency observation
under that label, every `GetAll` does the same under `("method", "get all")`, whatever
the wrapped call returns; `Save` leaves every other counter, the `"get all"` one
included, unchanged, and `GetAll` leaves the `"save"` one unchanged. -/
theorem C8_metrics_count_exact {E : homing.Env} {σ : Type} (svc : homing.Service E σ)
    (counter latency : metrics.Handle) (mm : api.metricsMiddleware σ) :
    (∀ ctx t,
      (∃ d, ((api.MetricsMiddleware svc counter latency).Save ctx t mm).2.counter
          = mm.counter ++ [((counter.With [str "method", str "save"]).lvs, 1)] ∧
        ((api.MetricsMiddleware svc counter latency).Save ctx t mm).2.latency
          = mm.latency ++ [((latency.With [str "method", str "save"]).lvs, d)]) ∧
      ((api.MetricsMiddleware svc counter latency).Save ctx t mm).2.counter.value
          (counter.With [str "method", str "save"]).lvs
        = mm.counter.value (counter.With [str "method", str "save"]).lvs + 1 ∧
      ((api.MetricsMiddleware svc counter latency).Save ctx t mm).2.latency.count
          (latency.With [str "method", str "save"]).lvs
        = mm.latency.count (latency.With [str "method", str "save"]).lvs + 1 ∧
      (∀ lvs, lvs ≠ (counter.With [str "method", str "save"]).lvs →
        ((api.MetricsMiddleware svc counter latency).Save ctx t mm).2.counter.value lvs
          = mm.counter.value lvs) ∧
      ((api.MetricsMiddleware svc counter latency).Save ctx t mm).2.counter.value
          (counter.With [str "method", str "get all"]).lvs
        = mm.counter.value (counter.With [str "method", str "get all"]).lvs) ∧
    (∀ ctx repo token pm,
      (∃ d, ((api.MetricsMiddleware svc counter latency).GetAll ctx repo token pm mm).2.counter
          = mm.counter ++ [((counter.With [str "method", str "get all"]).lvs, 1)] ∧
        ((api.MetricsMiddleware svc counter latency).GetAll ctx repo token pm mm).2.latency
          = mm.latency ++ [((latency.With [str "method", str "get all"]).lvs, d)]) ∧
      ((api.MetricsMiddleware svc counter latency).GetAll ctx repo token pm mm).2.counter.value
          (counter.With [str "method", str "get all"]).lvs
        = mm.counter.value (counter.With [str "method", str "get all"]).lvs + 1 ∧
      ((api.MetricsMiddleware svc counter latency).GetAll ctx repo token pm mm).2.latency.count
          (latency.With [str "method", str "get all"]).lvs
        = mm.latency.count (latency.With [str "method", str "get all"]).lvs + 1 ∧
      (∀ lvs, lvs ≠ (counter.With [str "method", str "get all"]).lvs →
        ((api.MetricsMiddleware svc counter latency).GetAll ctx repo token pm mm).2.counter.value
            lvs
          = mm.counter.value lvs) ∧
      ((api.MetricsMiddleware svc counter latency).GetAll ctx repo token pm mm).2.counter.value
          (counter.With [str "method", str "save"]).lvs
        = mm.counter.value (counter.With [str "method", str "save"]).lvs) := by
  constructor
  · intro ctx t
    rw [metricsSave_eq]
    refine ⟨⟨_, rfl, rfl⟩, ?_, ?_, ?_, ?_⟩
    · simp only [metrics.Handle.With, counter_value_append, if_true]
    · simp only [metrics.Handle.With, histogram_count_append, if_true]
    · intro lvs h
      simp only [metrics.Handle.With] at h
      simp only [counter_value_append, if_neg (Ne.symm h), Nat.add_zero]
    · simp only [metrics.Handle.With, counter_value_append,
        if_neg (save_labels_ne_getAll counter.lvs), Nat.add_zero]
  · intro ctx repo token pm
    rw [metricsGetAll_eq]
    refine ⟨⟨_, rfl, rfl⟩, ?_, ?_, ?_, ?_⟩
    · simp only [metrics.Handle.With, counter_value_append, if_true]
    · simp only [metrics.Handle.With, histogram_count_append, if_true]
    · intro lvs h
      simp only [metrics.Handle.With] at h
      simp only [counter_value_append, if_neg (Ne.symm h), Nat.add_zero]
    · simp only [metrics.Handle.With, counter_value_append,
        if_neg (Ne.symm (save_labels_ne_getAll counter.lvs)), Nat.add_zero]

/-- C8, on a failing service with fresh metrics: one `Save` brings the `"save"`
counter from 0 to 1 and leaves the `"get all"` counter at 0. -/
theorem C8_metrics_count_exact_witness :
    ((api.MetricsMiddleware failingService ⟨[]⟩ ⟨[]⟩).Save () (str "10.0.0.1")
        (freshMetrics [])).2.counter.value [str "method", str "save"] = 0 + 1 ∧
    ((api.MetricsMiddleware failingService ⟨[]⟩ ⟨[]⟩).Save () (str "10.0.0.1")
        (freshMetrics [])).2.counter.value [str "method", str "get all"] = 0 :=
  ⟨((C8_metrics_count_exact failingService ⟨[]⟩ ⟨[]⟩ (freshMetrics [])).1 ()
      (str "10.0.0.1")).2.1,
   ((C8_metrics_count_exact failingService ⟨[]⟩ ⟨[]⟩ (freshMetrics [])).1 ()
      (str "10.0.0.1")).2.2.2.2⟩

/-- C9: each call of `Save` or `GetAll` on the logging middleware writes exactly one
log entry, with `Warn` or with `Info` and never both or neither: with `Warn`, its text
containing the error's message, if and only if the wrapped service returned a non-nil
error, and with `Info` otherwise. -/
theorem C9_one_log_entry_per_call {E : homing.Env} {σ : Type} (svc : homing.Service E σ)
    (lm : api.loggingMiddleware σ) :
    (∀ ctx t, ∃ e : logger.Entry,
      ((api.LoggingMiddleware svc).Save ctx t lm).2.hommingLogger = lm.hommingLogger ++ [e] ∧
      (e.level = .Warn ∨ e.level = .Info) ∧
      (e.level = .Warn ↔ (svc.Save ctx t lm.svc).1 ≠ none) ∧
      (e.level = .Info ↔ (svc.Save ctx t lm.svc).1 = none) ∧
      (∀ err, (svc.Save ctx t lm.svc).1 = some err → E.ErrorText err <:+: e.message)) ∧
    (∀ ctx repo token pm, ∃ e : logger.Entry,
      ((api.LoggingMiddleware svc).GetAll ctx repo token pm lm).2.hommingLogger
        = lm.hommingLogger ++ [e] ∧
      (e.level = .Warn ∨ e.level = .Info) ∧
      (e.level = .Warn ↔ (svc.GetAll ctx repo token pm lm.svc).1.2 ≠ none) ∧
      (e.level = .Info ↔ (svc.GetAll ctx repo token pm lm.svc).1.2 = none) ∧
      (∀ err, (svc.GetAll ctx repo token pm lm.svc).1.2 = some err →
        E.ErrorText err <:+: e.message)) := by
  constructor
  · intro ctx t
    rw [loggingSave_eq]
    obtain ⟨e, he, h1, h2, h3, h4, _⟩ := logOutcome_entry E lm.hommingLogger
      (api.saveMessage E (time.Since (time.Now lm.clock).1 (time.Now lm.clock).2).1)
      (svc.Save ctx t lm.svc).1
    refine ⟨e, he, h1, h2, h3, ?_⟩
    intro err herr
    rw [h4 err herr]
    exact ⟨_, _, rfl⟩
  · intro ctx repo token pm
    rw [loggingGetAll_eq]
    obtain ⟨e, he, h1, h2, h3, h4, _⟩ := logOutcome_entry E lm.hommingLogger
      (api.getAllMessage E token (time.Since (time.Now lm.clock).1 (time.Now lm.clock).2).1)
      (svc.GetAll ctx repo token pm lm.svc).1.2
    refine ⟨e, he, h1, h2, h3, ?_⟩
    intro err herr
    rw [h4 err herr]
    exact ⟨_, _, rfl⟩

/-- C9, on a service that fails every call: the one entry `Save` writes is a `Warn`. -/
theorem C9_one_log_entry_per_call_witness :
    ∃ e : logger.Entry,
      ((api.LoggingMiddleware failingService).Save () (str "10.0.0.1")
        (freshLogging [])).2.hommingLogger = [] ++ [e] ∧
      (e.level = .Warn ∨ e.level = .Info) ∧
      (e.level = .Warn ↔ (failingService.Save () (str "10.0.0.1") []).1 ≠ none) ∧
      (e.level = .Info ↔ (failingService.Save () (str "10.0.0.1") []).1 = none) ∧
      (∀ err, (failingService.Save () (str "10.0.0.1") []).1 = some err →
        exampleEnv.ErrorText err <:+: e.message) :=
  (C9_one_log_entry_per_call failingService (freshLogging [])).1 () (str "10.0.0.1")

/-- C10, as stated, fails twice.  A service whose error quotes the record puts the
record's IP address into the message `Save` writes.  And two `GetAll` calls that
differ only in their token leave the same log when the wrapped service answers the
two tokens with different errors whose texts make up for the difference. -/
theorem C10_log_counterexample :
    (((api.LoggingMiddleware quotingService).Save () (str "10.0.0.1")
        (freshLogging [])).2.hommingLogger
      = [⟨.Warn, str "Method save telemetry event took 1ms to complete with error: " ++
          (str "duplicate key ip_address=" ++ str "10.0.0.1") ++ str "."⟩]) ∧
    (str "a" ≠ str "a took 1ms to complete with error: x" ∧
      ((api.LoggingMiddleware tokenEchoService).GetAll () (str "repo") (str "a") (0, 10)
          (freshLogging [])).2.hommingLogger
        = ((api.LoggingMiddleware tokenEchoService).GetAll () (str "repo")
            (str "a took 1ms to complete with error: x") (0, 10)
            (freshLogging [])).2.hommingLogger) := by
  decide

/-- C10, amended: the entry `GetAll` writes on the logging middleware carries the
caller's token: on the `Warn` and on the `Info` path its message is
`"Method get all telemetry with token "`, then the token verbatim, then the rest; two
`GetAll` calls that differ only in their token, the wrapped service returning no error
both times or errors with the same text, write different messages.  The entry `Save`
writes is `"Method save telemetry event took <elapsed> to complete without errors."`
with `Info` when the wrapped service returns no error, and
`"Method save telemetry event took <elapsed> to complete with error: <text>."` with
`Warn` when it returns an error with that text: the telemetry record reaches the
message only through the text of the returned error. -/
theorem C10_log_token_and_record {E : homing.Env} {σ : Type} (svc : homing.Service E σ)
    (lm : api.loggingMiddleware σ) (ctx : E.Context) (repo : GoString)
    (pm : E.PageMetadata) :
    (∀ token, ∃ (e : logger.Entry) (rest : GoString),
      ((api.LoggingMiddleware svc).GetAll ctx repo token pm lm).2.hommingLogger
        = lm.hommingLogger ++ [e] ∧
      e.message = str "Method get all telemetry with token " ++ token ++ rest ∧
      (e.level = .Warn ↔ (svc.GetAll ctx repo token pm lm.svc).1.2 ≠ none) ∧
      (e.level = .Info ↔ (svc.GetAll ctx repo token pm lm.svc).1.2 = none)) ∧
    (∀ t1 t2, t1 ≠ t2 →
      (svc.GetAll ctx repo t1 pm lm.svc).1.2.map E.ErrorText
        = (svc.GetAll ctx repo t2 pm lm.svc).1.2.map E.ErrorText →
      ∃ e1 e2 : logger.Entry,
        ((api.LoggingMiddleware svc).GetAll ctx repo t1 pm lm).2.hommingLogger
          = lm.hommingLogger ++ [e1] ∧
        ((api.LoggingMiddleware svc).GetAll ctx repo t2 pm lm).2.hommingLogger
          = lm.hommingLogger ++ [e2] ∧
        e1.message ≠ e2.message) ∧
    (∃ d, ∀ t : E.Telemetry, ∃ e : logger.Entry,
      ((api.LoggingMiddleware svc).Save ctx t lm).2.hommingLogger = lm.hommingLogger ++ [e] ∧
      ((svc.Save ctx t lm.svc).1 = none →
        e = ⟨.Info, str "Method save telemetry event took " ++ E.DurationString d ++
          str " to complete" ++ str " without errors."⟩) ∧
      (∀ x, (svc.Save ctx t lm.svc).1 = some x →
        e = ⟨.Warn, str "Method save telemetry event took " ++ E.DurationString d ++
          str " to complete" ++ str " with error: " ++ E.ErrorText x ++ str "."⟩)) := by
  refine ⟨?_, ?_, ?_⟩
  · intro token
    rw [loggingGetAll_eq]
    cases herr : (svc.GetAll ctx repo token pm lm.svc).1.2 with
    | none =>
      refine ⟨⟨.Info, _⟩, str " took " ++ E.DurationString
        (time.Since (time.Now lm.clock).1 (time.Now lm.clock).2).1 ++
        str " to complete" ++ str " without errors.", rfl, ?_, by simp, by simp⟩
      simp only [api.getAllMessage, List.append_assoc]
    | some x =>
      refine ⟨⟨.Warn, _⟩, str " took " ++ E.DurationString
        (time.Since (time.Now lm.clock).1 (time.Now lm.clock).2).1 ++
        str " to complete" ++ str " with error: " ++ E.ErrorText x ++ str ".", rfl, ?_,
        by simp, by simp⟩
      simp only [api.getAllMessage, List.append_assoc]
  · intro t1 t2 hne herr
    rw [loggingGetAll_eq, loggingGetAll_eq]
    cases h1 : (svc.GetAll ctx repo t1 pm lm.svc).1.2 with
    | none =>
      cases h2 : (svc.GetAll ctx repo t2 pm lm.svc).1.2 with
      | none =>
        refine ⟨⟨.Info, _⟩, ⟨.Info, _⟩, rfl, rfl, ?_⟩
        intro hm
        exact hne (getAllMessage_token_injective E t1 t2 _ _ hm)
      | some y => rw [h1, h2] at herr; simp at herr
    | some x =>
      cases h2 : (svc.GetAll ctx repo t2 pm lm.svc).1.2 with
      | none => rw [h1, h2] at herr; simp at herr
      | some y =>
        rw [h1, h2] at herr
        have hxy : E.ErrorText x = E.ErrorText y := by simpa using herr
        refine ⟨⟨.Warn, _⟩, ⟨.Warn, _⟩, rfl, rfl, ?_⟩
        intro hm
        apply hne
        simp only [hxy, List.append_assoc] at hm
        exact getAllMessage_token_injective E t1 t2 _ _ hm
  · refine ⟨(time.Since (time.Now lm.clock).1 (time.Now lm.clock).2).1, fun t => ?_⟩
    rw [loggingSave_eq]
    cases herr : (svc.Save ctx t lm.svc).1 with
    | none =>
      refine ⟨⟨.Info, _⟩, rfl, fun _ => ?_, fun x hx => by simp at hx⟩
      simp only [api.saveMessage, List.append_assoc]
    | some x =>
      refine ⟨⟨.Warn, _⟩, rfl, fun h => by simp at h, fun y hy => ?_⟩
      have hxy : x = y := by simpa using hy
      subst hxy
      simp only [api.saveMessage, List.append_assoc]

/-- C10, amended, on a service that lists nothing: `GetAll` with the tokens `"alice"`
and `"bob"` writes different messages. -/
theorem C10_log_token_and_record_witness :
    ∃ e1 e2 : logger.Entry,
      ((api.LoggingMiddleware okService).GetAll () (str "repo") (str "alice") (0, 10)
          (freshLogging [])).2.hommingLogger = [] ++ [e1] ∧
      ((api.LoggingMiddleware okService).GetAll () (str "repo") (str "bob") (0, 10)
          (freshLogging [])).2.hommingLogger = [] ++ [e2] ∧
      e1.message ≠ e2.message :=
  (C10_log_token_and_record okService (freshLogging []) () (str "repo") (0, 10)).2.1
    (str "alice") (str "bob") (by decide) rfl
